import Mathlib

/-!
Shallow embedding of the synqup-leads trigger-to-message pipeline.

The embedding covers the parts of the code base exercised by the verified
properties:

- the data model (`shared/schema.ts`): accounts, people, triggers, messages,
  with timestamps modelled as a natural-number clock held in the `Db` state;
- the storage layer (`server/storage.ts`, class `DatabaseStorage`): lists kept
  in insertion order; a `SELECT ... ORDER BY createdAt DESC LIMIT l OFFSET o`
  is modelled as `reverse`, then `drop o`, then `take l` (the clock is
  monotone, so reverse insertion order coincides with `createdAt DESC`,
  with ties broken by recency);
- `EmailService.sendEmail` / `EmailService.sendPendingEmails`
  (`server/services/emailSender.ts`); the SMTP transport is a parameter
  `transport : String → Bool` applied to the computed destination, `false`
  standing for `transporter.sendMail` throwing;
- `generateMessage` (`server/services/openai.ts`); the external completion
  call is a parameter of type `LlmOutcome`, with `JSON.parse` modelled by the
  `LlmJson` type (a reply either parses to an object with optional string
  fields, or is malformed text on which `JSON.parse` throws);
- `SchedulerService.runMessageBrain` (`server/services/scheduler.ts`); the
  generator call is a parameter `gen`, matching the spec's "Generator stub";
- `GoogleNewsService.scanAccountNews` (`server/services/googleNews.ts`);
  the external search is a parameter `search : String → List NewsResult`.

JavaScript truthiness of the strings and nullable columns involved is
modelled explicitly (`jsOrStr`, `jsOrOptStr`, `personEmailUsable`, the
`personId == 0` case).
-/

namespace Crm

/-- A row of the `accounts` table (fields used by the pipeline). -/
structure Account where
  id : Nat
  name : String
  deriving Repr, DecidableEq

/-- A row of the `people` table (fields used by the pipeline). -/
structure Person where
  id : Nat
  accountId : Option Nat
  firstName : String
  lastName : String
  email : Option String
  linkedin : Option String
  twitter : Option String
  deriving Repr, DecidableEq

/-- A row of the `triggers` table. -/
structure Trigger where
  id : Nat
  accountId : Option Nat
  personId : Option Nat
  media : Option String
  url : Option String
  content : String
  triggerType : String
  status : String
  createdAt : Nat
  updatedAt : Nat
  deriving Repr, DecidableEq

/-- A row of the `messages` table.  The `from` column is called `from_`
because `from` is reserved in Lean. -/
structure Message where
  id : Nat
  conversationId : Option Nat
  personId : Nat
  triggerId : Option Nat
  media : String
  address : String
  from_ : String
  subject : Option String
  content : String
  status : String
  sentAt : Option Nat
  createdAt : Nat
  updatedAt : Nat
  deriving Repr, DecidableEq

/-- The database state, plus the serial-id counters and the current clock. -/
structure Db where
  accounts : List Account
  people : List Person
  triggers : List Trigger
  messages : List Message
  nextTriggerId : Nat
  nextMessageId : Nat
  now : Nat
  deriving Repr, DecidableEq

/-- `InsertTrigger` of `shared/schema.ts`: the caller-supplied columns. -/
structure InsertTrigger where
  accountId : Option Nat
  personId : Option Nat
  media : Option String
  url : Option String
  content : String
  triggerType : String
  status : String
  deriving Repr, DecidableEq

/-- `InsertMessage` of `shared/schema.ts`: the caller-supplied columns. -/
structure InsertMessage where
  conversationId : Option Nat
  personId : Nat
  triggerId : Option Nat
  media : String
  address : String
  from_ : String
  subject : Option String
  content : String
  status : String
  deriving Repr, DecidableEq

/-- `Partial<InsertMessage>` restricted to the columns the verified callers
patch (`status` and `sentAt`); an outer `none` means "field absent". -/
structure MessagePatch where
  status : Option String
  sentAt : Option (Option Nat)
  deriving Repr, DecidableEq

/-- `Partial<InsertTrigger>` restricted to the column the verified callers
patch (`status`). -/
structure TriggerPatch where
  status : Option String
  deriving Repr, DecidableEq

/-- JavaScript `a || b` on strings (`""` is falsy). -/
def jsOrStr (a b : String) : String :=
  if a == "" then b else a

/-- JavaScript `a || b` where `a` is a nullable string column. -/
def jsOrOptStr (a : Option String) (b : String) : String :=
  match a with
  | some v => jsOrStr v b
  | none => b

/-- `person?.email` truthiness: a usable email is a present, non-empty one. -/
def personEmailUsable (person : Option Person) : Bool :=
  match person with
  | some p =>
    match p.email with
    | some e => !(e == "")
    | none => false
  | none => false

/-- Does the character list `l` start with `sub`? -/
def charsStartWith : List Char → List Char → Bool
  | [], _ => true
  | _ :: _, [] => false
  | a :: as, b :: bs => a == b && charsStartWith as bs

/-- Does `l` contain `sub` as a contiguous run? -/
def charsHaveSub (sub : List Char) : List Char → Bool
  | [] => charsStartWith sub []
  | s :: rest => charsStartWith sub (s :: rest) || charsHaveSub sub rest

/-- JavaScript `s.includes(sub)` (substring containment). -/
def strIncludes (s sub : String) : Bool :=
  charsHaveSub sub.data s.data

/-- `s.toLowerCase()` (ASCII, per-character). -/
def strLower (s : String) : String :=
  ⟨s.data.map Char.toLower⟩

/-! ## Storage layer (`DatabaseStorage`) -/

/-- `getAccounts(limit, offset)`: `ORDER BY createdAt DESC LIMIT ... OFFSET ...`. -/
def getAccounts (db : Db) (limit offset : Nat) : List Account :=
  (db.accounts.reverse.drop offset).take limit

/-- `getTriggers(limit, offset, status?)`: optional status filter, newest first. -/
def getTriggers (db : Db) (limit offset : Nat) (status : Option String) : List Trigger :=
  let base := db.triggers.reverse
  let filtered :=
    match status with
    | some s => base.filter (fun (t : Trigger) => t.status == s)
    | none => base
  (filtered.drop offset).take limit

/-- `getTriggersByStatus(status)` delegates to `getTriggers(1000, 0, status)`. -/
def getTriggersByStatus (db : Db) (status : String) : List Trigger :=
  getTriggers db 1000 0 (some status)

/-- `getMessages(limit, offset, status?)` (the `personId` filter is unused by
the verified callers), newest first. -/
def getMessages (db : Db) (limit offset : Nat) (status : Option String) : List Message :=
  let base := db.messages.reverse
  let filtered :=
    match status with
    | some s => base.filter (fun (m : Message) => m.status == s)
    | none => base
  (filtered.drop offset).take limit

/-- `getMessagesByStatus(status)` delegates to `getMessages(1000, 0, status)`. -/
def getMessagesByStatus (db : Db) (status : String) : List Message :=
  getMessages db 1000 0 (some status)

/-- The trigger row materialized by `createTrigger`. -/
def insertedTrigger (db : Db) (ins : InsertTrigger) : Trigger :=
  { id := db.nextTriggerId
    accountId := ins.accountId
    personId := ins.personId
    media := ins.media
    url := ins.url
    content := ins.content
    triggerType := ins.triggerType
    status := ins.status
    createdAt := db.now
    updatedAt := db.now }

/-- `createTrigger(trigger)`: insert with serial id and `defaultNow()` timestamps. -/
def createTrigger (db : Db) (ins : InsertTrigger) : Db :=
  { db with
    triggers := db.triggers ++ [insertedTrigger db ins]
    nextTriggerId := db.nextTriggerId + 1 }

/-- The message row materialized by `createMessage` (null `sentAt`). -/
def insertedMessage (db : Db) (ins : InsertMessage) : Message :=
  { id := db.nextMessageId
    conversationId := ins.conversationId
    personId := ins.personId
    triggerId := ins.triggerId
    media := ins.media
    address := ins.address
    from_ := ins.from_
    subject := ins.subject
    content := ins.content
    status := ins.status
    sentAt := none
    createdAt := db.now
    updatedAt := db.now }

/-- `createMessage(message)`: insert with serial id, `defaultNow()` timestamps,
and a null `sentAt`. -/
def createMessage (db : Db) (ins : InsertMessage) : Db :=
  { db with
    messages := db.messages ++ [insertedMessage db ins]
    nextMessageId := db.nextMessageId + 1 }

/-- Apply a message patch to one row (`.set({...message, updatedAt: new Date()})`). -/
def applyMessagePatch (now : Nat) (patch : MessagePatch) (m : Message) : Message :=
  { m with
    status := patch.status.getD m.status
    sentAt := patch.sentAt.getD m.sentAt
    updatedAt := now }

/-- `updateMessage(id, message)`: patch every row whose id matches. -/
def updateMessage (db : Db) (id : Nat) (patch : MessagePatch) : Db :=
  { db with
    messages := db.messages.map (fun m =>
      if m.id == id then applyMessagePatch db.now patch m else m) }

/-- Apply a trigger patch to one row. -/
def applyTriggerPatch (now : Nat) (patch : TriggerPatch) (t : Trigger) : Trigger :=
  { t with
    status := patch.status.getD t.status
    updatedAt := now }

/-- `updateTrigger(id, trigger)`: patch every row whose id matches. -/
def updateTrigger (db : Db) (id : Nat) (patch : TriggerPatch) : Db :=
  { db with
    triggers := db.triggers.map (fun t =>
      if t.id == id then applyTriggerPatch db.now patch t else t) }

/-- Look a person up by id (the `leftJoin` on `people.id`). -/
def personOf (db : Db) (pid : Nat) : Option Person :=
  db.people.find? (fun p => p.id == pid)

/-- The `person` field of a fetched trigger (`leftJoin(people, eq(triggers.personId, people.id))`). -/
def triggerPerson (db : Db) (t : Trigger) : Option Person :=
  t.personId.bind (fun pid => personOf db pid)

/-! ## EmailService (`server/services/emailSender.ts`) -/

/-- The patch written by `sendEmail`'s catch handler: `{ status: 'failed' }`. -/
def failedPatch : MessagePatch :=
  { status := some "failed", sentAt := none }

/-- The patch written on successful delivery: `{ status: 'sent', sentAt: new Date() }`. -/
def sentPatch (now : Nat) : MessagePatch :=
  { status := some "sent", sentAt := some (some now) }

/-- The `to:` field of the mail options: `message.address || message.person.email`. -/
def mailTo (m : Message) (person : Option Person) : String :=
  jsOrStr m.address ((person.bind Person.email).getD "")

/-- `EmailService.sendEmail(message)`.  The two precondition checks throw
inside the `try`, and any throw (including a transport failure, modelled by
`transport` returning `false` on the computed destination) lands in the
`catch`, which sets the message's status to `failed` and returns `false`.
Successful delivery sets `status: 'sent', sentAt: now` and returns `true`. -/
def sendEmail (db : Db) (transport : String → Bool) (m : Message)
    (person : Option Person) : Db × Bool :=
  if m.media != "email" then
    (updateMessage db m.id failedPatch, false)
  else if !(personEmailUsable person) then
    (updateMessage db m.id failedPatch, false)
  else if transport (mailTo m person) then
    (updateMessage db m.id (sentPatch db.now), true)
  else
    (updateMessage db m.id failedPatch, false)

/-- `EmailService.sendPendingEmails()`: fetch `status='to_send'` (capped at
1000 by `getMessagesByStatus`), filter to `media === 'email'`, and send each
sequentially.  Each message's embedded person comes from the fetch-time join,
hence `personOf db`, not `personOf acc`. -/
def sendPendingEmails (db : Db) (transport : String → Bool) : Db :=
  let pendingMessages := getMessagesByStatus db "to_send"
  let emailMessages := pendingMessages.filter (fun (m : Message) => m.media == "email")
  emailMessages.foldl
    (fun acc m => (sendEmail acc transport m (personOf db m.personId)).1) db

/-! ## Outreach generator (`server/services/openai.ts`, `generateMessage`) -/

/-- The draft returned by the generator. -/
structure MessageDraft where
  subject : String
  content : String
  tone : String
  media : String
  deriving Repr, DecidableEq

/-- The completion's `message.content` after `JSON.parse`: either it parses
to an object whose four relevant fields are each absent or a string, or it is
malformed text on which `JSON.parse` throws. -/
inductive LlmJson where
  | obj (subject content tone media : Option String)
  | malformed
  deriving Repr, DecidableEq

/-- Outcome of the external completion call: a reply with nullable content,
or the call itself throwing. -/
inductive LlmOutcome where
  | reply (content : Option LlmJson)
  | failure (msg : String)
  deriving Repr, DecidableEq

/-- `generateMessage(person, trigger)`.  A null content falls back to `'{}'`
(an object with no fields); each missing or empty field falls back to its
deterministic default; `JSON.parse` throwing, or the call failing, is
re-thrown as `"Failed to generate message: ..."`. -/
def generateMessage (person : Person) (t : Trigger) (outcome : LlmOutcome) :
    Except String MessageDraft :=
  match person, outcome with
  | _, .failure e => .error ("Failed to generate message: " ++ e)
  | _, .reply content =>
    match content.getD (.obj none none none none) with
    | .malformed => .error ("Failed to generate message: " ++ "Unexpected token in JSON")
    | .obj s c tn md =>
      .ok
        { subject := jsOrOptStr s ("Following up on " ++ t.triggerType)
          content := jsOrOptStr c "Hello, I wanted to reach out regarding recent developments."
          tone := jsOrOptStr tn "professional"
          media := jsOrOptStr md "email" }

/-! ## Trigger processor (`SchedulerService.runMessageBrain`) -/

/-- The address switch on `messageDraft.media.toLowerCase()`. -/
def resolveAddress (p : Person) (media : String) : String :=
  match strLower media with
  | "email" => p.email.getD ""
  | "linkedin" => p.linkedin.getD ""
  | "twitter" => p.twitter.getD ""
  | _ => jsOrStr (p.email.getD "") (p.linkedin.getD "")

/-- The trigger status patch `{ status: 'handled' }`. -/
def handledPatch : TriggerPatch :=
  { status := some "handled" }

/-- The `InsertMessage` built for a drafted trigger. -/
def brainInsert (t : Trigger) (pid : Nat) (draft : MessageDraft) (address : String) :
    InsertMessage :=
  { conversationId := none
    personId := pid
    triggerId := some t.id
    media := draft.media
    address := address
    from_ := "us"
    subject := some draft.subject
    content := draft.content
    status := "draft" }

/-- One iteration of `runMessageBrain`'s loop, for trigger `t`, starting from
the accumulated state `acc`.  `db0` is the fetch-time state: the embedded
`trigger.person` comes from the join performed when the snapshot was read.
Skips: a falsy `personId` (null, or 0 — JavaScript `!trigger.personId`), a
null joined person, a generator throw (caught per trigger), and an empty
resolved address. -/
def processTrigger (gen : Person → Trigger → Except String MessageDraft)
    (db0 : Db) (acc : Db) (t : Trigger) : Db :=
  match t.personId, triggerPerson db0 t with
  | some pid, some person =>
    if pid == 0 then acc
    else
      match gen person t with
      | .error _ => acc
      | .ok draft =>
        let address := resolveAddress person draft.media
        if address == "" then acc
        else
          updateTrigger (createMessage acc (brainInsert t pid draft address)) t.id handledPatch
  | _, _ => acc

/-- `SchedulerService.runMessageBrain()`: fetch the `status='new'` snapshot
(newest first, capped at 1000), then process each fetched trigger in order. -/
def runMessageBrain (gen : Person → Trigger → Except String MessageDraft)
    (db : Db) : Db :=
  (getTriggersByStatus db "new").foldl (processTrigger gen db) db

/-! ## Event scanner (`GoogleNewsService.scanAccountNews`) -/

/-- One external search hit (`NewsResult` in `googleNews.ts`). -/
structure NewsResult where
  title : String
  link : String
  snippet : String
  source : String
  date : String
  deriving Repr, DecidableEq

/-- The account-level news trigger inserted for an unseen hit. -/
def newsInsert (account : Account) (news : NewsResult) : InsertTrigger :=
  { accountId := some account.id
    personId := none
    media := some news.source
    url := some news.link
    content := news.title ++ "\n\n" ++ news.snippet
    triggerType := "news"
    status := "new" }

/-- Handling of a single hit for `account`: re-fetch the 10 most recent
triggers, test `t.url === news.link || (t.content.includes(news.title) &&
t.accountId === account.id)`, and insert a fresh account-level news trigger
when no match is found. -/
def scanOneNews (account : Account) (acc : Db) (news : NewsResult) : Db :=
  let existingTriggers := getTriggers acc 10 0 none
  let alreadySeen := existingTriggers.any (fun t =>
    t.url == some news.link ||
    (strIncludes t.content news.title && t.accountId == some account.id))
  if alreadySeen then acc
  else createTrigger acc (newsInsert account news)

/-- `GoogleNewsService.scanAccountNews()`: for the first 100 accounts, search
by account name (the external search is the `search` parameter) and handle
each hit in order. -/
def scanAccountNews (search : String → List NewsResult) (db : Db) : Db :=
  (getAccounts db 100 0).foldl
    (fun acc account => (search account.name).foldl (scanOneNews account) acc) db

/-! ## The operations that can write message status, as a step type -/

/-- An operation of the pipeline acting on the store: the passage of time, a
single Mailer send, a pending-email sweep, or a trigger-processor run. -/
inductive SysOp where
  | tick (dt : Nat)
  | mailerSend (m : Message) (person : Option Person) (transport : String → Bool)
  | sendPendingOp (transport : String → Bool)
  | brainOp (gen : Person → Trigger → Except String MessageDraft)

/-- Apply one pipeline operation to the state. -/
def applySysOp (db : Db) : SysOp → Db
  | .tick dt => { db with now := db.now + dt }
  | .mailerSend m person transport => (sendEmail db transport m person).1
  | .sendPendingOp transport => sendPendingEmails db transport
  | .brainOp gen => runMessageBrain gen db

/-! ## Observation helpers used by the theorem statements -/

/-- The messages referencing trigger `tid`. -/
def msgsForTrigger (db : Db) (tid : Nat) : List Message :=
  db.messages.filter (fun m => m.triggerId == some tid)

/-- Every trigger row with id `tid` has status `s`. -/
def triggerStatusIs (db : Db) (tid : Nat) (s : String) : Prop :=
  ∀ t ∈ db.triggers, t.id = tid → t.status = s

/-- The C7 invariant: a sent message has a send time at or after its creation. -/
def sentOk (db : Db) : Prop :=
  ∀ m ∈ db.messages, m.status = "sent" → ∃ ts, m.sentAt = some ts ∧ m.createdAt ≤ ts

/-- Clock consistency: no message was created in the future. -/
def clockOk (db : Db) : Prop :=
  ∀ m ∈ db.messages, m.createdAt ≤ db.now

/-- Every message row with id `mid` has status `s`. -/
def msgStatusIs (db : Db) (mid : Nat) (s : String) : Prop :=
  ∀ r ∈ db.messages, r.id = mid → r.status = s

/-- The status `sendEmail` leaves on an email message: `sent` exactly when
the person's email is usable and the transport delivers to the computed
destination, `failed` otherwise. -/
def sendOutcome (transport : String → Bool) (person : Option Person) (m : Message) : String :=
  if personEmailUsable person && transport (mailTo m person) then "sent" else "failed"

/-! ## Concrete sample data for witnesses and counterexamples -/

/-- A person with a usable email channel. -/
def janeW : Person :=
  { id := 1, accountId := none, firstName := "Jane", lastName := "Doe",
    email := some "jane@x.com", linkedin := none, twitter := none }

/-- A person with no contact channel on file. -/
def noChannelW : Person :=
  { id := 1, accountId := none, firstName := "Jane", lastName := "Doe",
    email := none, linkedin := none, twitter := none }

/-- A fresh person-scoped news trigger. -/
def trigW : Trigger :=
  { id := 1, accountId := none, personId := some 1, media := none, url := none,
    content := "some news", triggerType := "news", status := "new",
    createdAt := 0, updatedAt := 0 }

/-- A fresh account-level news trigger (null personId). -/
def trigAccW : Trigger :=
  { id := 1, accountId := some 1, personId := none, media := none, url := none,
    content := "some news", triggerType := "news", status := "new",
    createdAt := 0, updatedAt := 0 }

/-- A generator stub returning a fixed email draft. -/
def genStubW : Person → Trigger → Except String MessageDraft :=
  fun _ _ => .ok { subject := "S", content := "C", tone := "professional", media := "email" }

/-- State with Jane and one new trigger for her. -/
def dbW1 : Db :=
  { accounts := [], people := [janeW], triggers := [trigW], messages := [],
    nextTriggerId := 2, nextMessageId := 1, now := 3 }

/-- State with Jane (who has no channels) and one new trigger for her. -/
def dbW4 : Db :=
  { accounts := [], people := [noChannelW], triggers := [trigW], messages := [],
    nextTriggerId := 2, nextMessageId := 1, now := 3 }

/-- State with one account-level trigger. -/
def dbW3 : Db :=
  { accounts := [], people := [], triggers := [trigAccW], messages := [],
    nextTriggerId := 2, nextMessageId := 1, now := 3 }

/-- The Acme account of the C2 scenario. -/
def acctW : Account :=
  { id := 1, name := "Acme Corp" }

/-- The search hit of the C2 scenario. -/
def hitW : NewsResult :=
  { title := "Acme raises $10M", link := "https://techcrunch.com/x",
    snippet := "Funding round", source := "TechCrunch", date := "2024-01-01" }

/-- State with the Acme account and no triggers. -/
def dbW2 : Db :=
  { accounts := [acctW], people := [], triggers := [], messages := [],
    nextTriggerId := 1, nextMessageId := 1, now := 3 }

/-- A queued non-email message (media `sms`). -/
def msgC5 : Message :=
  { id := 1, conversationId := none, personId := 1, triggerId := none,
    media := "sms", address := "555", from_ := "us", subject := none,
    content := "hi", status := "to_send", sentAt := none,
    createdAt := 0, updatedAt := 0 }

/-- State holding only `msgC5`. -/
def dbC5 : Db :=
  { accounts := [], people := [], triggers := [], messages := [msgC5],
    nextTriggerId := 1, nextMessageId := 2, now := 7 }

/-- A queued email message addressed to Jane. -/
def msgC6 : Message :=
  { id := 1, conversationId := none, personId := 1, triggerId := none,
    media := "email", address := "jane@x.com", from_ := "us", subject := some "S",
    content := "C", status := "to_send", sentAt := none,
    createdAt := 2, updatedAt := 2 }

/-- State holding Jane and `msgC6`. -/
def dbC6 : Db :=
  { accounts := [], people := [janeW], triggers := [], messages := [msgC6],
    nextTriggerId := 1, nextMessageId := 2, now := 7 }

/-- A queued email message with an empty stored address. -/
def msgC10 : Message :=
  { id := 1, conversationId := none, personId := 1, triggerId := none,
    media := "email", address := "", from_ := "us", subject := some "S",
    content := "C", status := "to_send", sentAt := none,
    createdAt := 2, updatedAt := 2 }

/-- The `PUT /api/messages/:id` body `{ status: 'sent' }` as a patch: sets the
status without supplying `sentAt`. -/
def sentOnlyPatch : MessagePatch :=
  { status := some "sent", sentAt := none }

/-- A not-yet-sent message (null `sentAt`). -/
def msgC7 : Message :=
  { id := 1, conversationId := none, personId := 1, triggerId := none,
    media := "email", address := "jane@x.com", from_ := "us", subject := none,
    content := "hi", status := "to_send", sentAt := none,
    createdAt := 0, updatedAt := 0 }

/-- State holding only `msgC7`. -/
def dbC7 : Db :=
  { accounts := [], people := [], triggers := [], messages := [msgC7],
    nextTriggerId := 1, nextMessageId := 2, now := 5 }

/-- An empty starting state for the C7 witness. -/
def dbW7 : Db :=
  { accounts := [], people := [janeW], triggers := [], messages := [],
    nextTriggerId := 1, nextMessageId := 1, now := 0 }

/-- The i-th of 1001 queued email messages (ids 1..1001, oldest first). -/
def mkPendingMsg (i : Nat) : Message :=
  { id := i + 1, conversationId := none, personId := 1, triggerId := none,
    media := "email", address := "jane@x.com", from_ := "us", subject := none,
    content := "hi", status := "to_send", sentAt := none,
    createdAt := 0, updatedAt := 0 }

/-- State with 1001 queued email messages: one more than the storage layer's
fetch cap of 1000. -/
def db1001 : Db :=
  { accounts := [], people := [janeW], triggers := [],
    messages := (List.range 1001).map mkPendingMsg,
    nextTriggerId := 1, nextMessageId := 1002, now := 5 }

/-- The i-th of 1001 new person-scoped triggers (ids 1..1001, oldest first). -/
def mkNewTrig (i : Nat) : Trigger :=
  { id := i + 1, accountId := none, personId := some 1, media := none, url := none,
    content := "some news", triggerType := "news", status := "new",
    createdAt := 0, updatedAt := 0 }

/-- State with Jane and 1001 new triggers for her: one more than the storage
layer's fetch cap of 1000. -/
def dbT1001 : Db :=
  { accounts := [], people := [janeW],
    triggers := (List.range 1001).map mkNewTrig,
    messages := [], nextTriggerId := 1002, nextMessageId := 1, now := 5 }

/-! ## Helper lemmas: the trigger-processor loop -/

lemma processTrigger_cases (gen : Person → Trigger → Except String MessageDraft)
    (db0 acc : Db) (t : Trigger) :
    processTrigger gen db0 acc t = acc ∨
    ∃ pid person draft,
      t.personId = some pid ∧ pid ≠ 0 ∧ triggerPerson db0 t = some person ∧
      gen person t = .ok draft ∧ resolveAddress person draft.media ≠ "" ∧
      processTrigger gen db0 acc t =
        updateTrigger
          (createMessage acc (brainInsert t pid draft (resolveAddress person draft.media)))
          t.id handledPatch := by
  rcases hpid : t.personId with _ | pid
  · left; simp [processTrigger, hpid]
  · rcases hper : triggerPerson db0 t with _ | person
    · left; simp [processTrigger, hpid, hper]
    · by_cases h0 : pid = 0
      · left; simp [processTrigger, hpid, hper, h0]
      · rcases hgen : gen person t with e | draft
        · left; simp [processTrigger, hpid, hper, h0, hgen]
        · by_cases haddr : resolveAddress person draft.media = ""
          · left; simp [processTrigger, hpid, hper, h0, hgen, haddr]
          · right
            refine ⟨pid, person, draft, ?_, h0, ?_, ?_, haddr,
              by simp [processTrigger, hpid, hper, h0, hgen, haddr]⟩
            · simp [hpid]
            · simp [hper]
            · simp [hgen]

lemma processTrigger_skip_none (gen : Person → Trigger → Except String MessageDraft)
    (db0 : Db) (t : Trigger) (hpid : t.personId = none) :
    ∀ a : Db, processTrigger gen db0 a t = a := by
  intro a; simp [processTrigger, hpid]

lemma processTrigger_skip_addr (gen : Person → Trigger → Except String MessageDraft)
    (db0 : Db) (t : Trigger) (pid : Nat) (person : Person) (draft : MessageDraft)
    (hpid : t.personId = some pid) (hper : triggerPerson db0 t = some person)
    (hgen : gen person t = .ok draft)
    (haddr : resolveAddress person draft.media = "") :
    ∀ a : Db, processTrigger gen db0 a t = a := by
  intro a
  by_cases h0 : pid = 0
  · simp [processTrigger, hpid, hper, h0]
  · simp [processTrigger, hpid, hper, h0, hgen, haddr]

lemma msgsForTrigger_updateTrigger (db : Db) (id : Nat) (patch : TriggerPatch) (tid : Nat) :
    msgsForTrigger (updateTrigger db id patch) tid = msgsForTrigger db tid := rfl

lemma msgsForTrigger_createMessage_ne (db : Db) (ins : InsertMessage) (tid : Nat)
    (h : ins.triggerId ≠ some tid) :
    msgsForTrigger (createMessage db ins) tid = msgsForTrigger db tid := by
  unfold msgsForTrigger createMessage
  simp [List.filter_append, insertedMessage, h]

lemma msgsForTrigger_createMessage_eq (db : Db) (ins : InsertMessage) (tid : Nat)
    (h : ins.triggerId = some tid) :
    msgsForTrigger (createMessage db ins) tid =
      msgsForTrigger db tid ++ [insertedMessage db ins] := by
  unfold msgsForTrigger createMessage
  simp [List.filter_append, insertedMessage, h]

lemma processTrigger_msgs_frame (gen : Person → Trigger → Except String MessageDraft)
    (db0 acc : Db) (t : Trigger) (tid : Nat) (h : t.id ≠ tid) :
    msgsForTrigger (processTrigger gen db0 acc t) tid = msgsForTrigger acc tid := by
  rcases processTrigger_cases gen db0 acc t with heq | ⟨pid, person, draft, _, _, _, _, _, heq⟩
  · rw [heq]
  · rw [heq, msgsForTrigger_updateTrigger, msgsForTrigger_createMessage_ne]
    simp [brainInsert, h]

lemma processTrigger_trigger_mem (gen : Person → Trigger → Except String MessageDraft)
    (db0 acc : Db) (t t0 : Trigger) (hmem : t0 ∈ acc.triggers) (hne : t0.id ≠ t.id) :
    t0 ∈ (processTrigger gen db0 acc t).triggers := by
  rcases processTrigger_cases gen db0 acc t with heq | ⟨pid, person, draft, _, _, _, _, _, heq⟩
  · rw [heq]; exact hmem
  · rw [heq]
    unfold updateTrigger createMessage
    simp only [List.mem_map]
    refine ⟨t0, hmem, ?_⟩
    simp [hne]

lemma processTrigger_handled_pres (gen : Person → Trigger → Except String MessageDraft)
    (db0 acc : Db) (t : Trigger) (tid : Nat)
    (h : triggerStatusIs acc tid "handled") :
    triggerStatusIs (processTrigger gen db0 acc t) tid "handled" := by
  rcases processTrigger_cases gen db0 acc t with heq | ⟨pid, person, draft, _, _, _, _, _, heq⟩
  · rw [heq]; exact h
  · rw [heq]
    intro tr hmem hid
    unfold updateTrigger createMessage at hmem
    simp only [List.mem_map] at hmem
    obtain ⟨tr0, hmem0, heq0⟩ := hmem
    by_cases hc : tr0.id = t.id
    · rw [← heq0]; simp [hc, applyTriggerPatch, handledPatch]
    · have : tr = tr0 := by rw [← heq0]; simp [hc]
      exact this ▸ h tr0 hmem0 (this ▸ hid)

lemma foldl_msgs_frame (gen : Person → Trigger → Except String MessageDraft)
    (db0 : Db) (tid : Nat) :
    ∀ (l : List Trigger) (acc : Db),
      (∀ t ∈ l, (∀ a : Db, processTrigger gen db0 a t = a) ∨ t.id ≠ tid) →
      msgsForTrigger (l.foldl (processTrigger gen db0) acc) tid = msgsForTrigger acc tid := by
  intro l
  induction l with
  | nil => intro acc _; rfl
  | cons t rest ih =>
    intro acc h
    have hrest : ∀ t' ∈ rest, (∀ a : Db, processTrigger gen db0 a t' = a) ∨ t'.id ≠ tid :=
      fun t' ht' => h t' (List.mem_cons_of_mem t ht')
    rw [List.foldl_cons, ih _ hrest]
    rcases h t (List.mem_cons_self t rest) with hskip | hne
    · rw [hskip acc]
    · exact processTrigger_msgs_frame gen db0 acc t tid hne

lemma foldl_trigger_mem (gen : Person → Trigger → Except String MessageDraft)
    (db0 : Db) (t0 : Trigger) :
    ∀ (l : List Trigger) (acc : Db),
      (∀ t ∈ l, (∀ a : Db, processTrigger gen db0 a t = a) ∨ t.id ≠ t0.id) →
      t0 ∈ acc.triggers →
      t0 ∈ (l.foldl (processTrigger gen db0) acc).triggers := by
  intro l
  induction l with
  | nil => intro acc _ hmem; exact hmem
  | cons t rest ih =>
    intro acc h hmem
    have hrest : ∀ t' ∈ rest, (∀ a : Db, processTrigger gen db0 a t' = a) ∨ t'.id ≠ t0.id :=
      fun t' ht' => h t' (List.mem_cons_of_mem t ht')
    rw [List.foldl_cons]
    refine ih _ hrest ?_
    rcases h t (List.mem_cons_self t rest) with hskip | hne
    · rw [hskip acc]; exact hmem
    · exact processTrigger_trigger_mem gen db0 acc t t0 hmem (fun hc => hne hc.symm)

lemma foldl_handled (gen : Person → Trigger → Except String MessageDraft)
    (db0 : Db) (tid : Nat) :
    ∀ (l : List Trigger) (acc : Db),
      triggerStatusIs acc tid "handled" →
      triggerStatusIs (l.foldl (processTrigger gen db0) acc) tid "handled" := by
  intro l
  induction l with
  | nil => intro acc h; exact h
  | cons t rest ih =>
    intro acc h
    rw [List.foldl_cons]
    exact ih _ (processTrigger_handled_pres gen db0 acc t tid h)

/-! ## Helper lemmas: snapshots and id uniqueness -/

lemma getTriggers_sublist (db : Db) (limit offset : Nat) (status : Option String) :
    List.Sublist (getTriggers db limit offset status) db.triggers.reverse := by
  unfold getTriggers
  rcases status with _ | s
  · exact (List.take_sublist _ _).trans (List.drop_sublist _ _)
  · exact ((List.take_sublist _ _).trans (List.drop_sublist _ _)).trans
      (List.filter_sublist _)

lemma getTriggers_mem (db : Db) (limit offset : Nat) (status : Option String)
    (t : Trigger) (h : t ∈ getTriggers db limit offset status) : t ∈ db.triggers := by
  have := (getTriggers_sublist db limit offset status).subset h
  exact List.mem_reverse.mp this

lemma snapshot_id_nodup (db : Db) (s : String)
    (hnodup : (db.triggers.map Trigger.id).Nodup) :
    ((getTriggersByStatus db s).map Trigger.id).Nodup := by
  have hsub := (getTriggers_sublist db 1000 0 (some s)).map Trigger.id
  refine hsub.nodup ?_
  rw [List.map_reverse]
  exact List.nodup_reverse.mpr hnodup

lemma trigger_id_inj (db : Db) (hnodup : (db.triggers.map Trigger.id).Nodup)
    (t1 t2 : Trigger) (h1 : t1 ∈ db.triggers) (h2 : t2 ∈ db.triggers)
    (h : t1.id = t2.id) : t1 = t2 :=
  List.inj_on_of_nodup_map hnodup h1 h2 h

lemma nodup_split_map {α β : Type} (f : α → β) (l1 l2 : List α) (a : α)
    (h : ((l1 ++ a :: l2).map f).Nodup) :
    (∀ u ∈ l1, f u ≠ f a) ∧ (∀ u ∈ l2, f u ≠ f a) := by
  rw [List.map_append, List.map_cons, List.nodup_append] at h
  obtain ⟨h1, h2, hdisj⟩ := h
  constructor
  · intro u hu heq
    exact hdisj (List.mem_map_of_mem f hu)
      (by rw [heq]; exact List.mem_cons_self _ _)
  · intro u hu heq
    rw [List.nodup_cons] at h2
    exact h2.1 (heq ▸ List.mem_map_of_mem f hu)

lemma processTrigger_hit (gen : Person → Trigger → Except String MessageDraft)
    (db0 acc : Db) (t : Trigger) (pid : Nat) (person : Person) (draft : MessageDraft)
    (hpid : t.personId = some pid) (h0 : pid ≠ 0)
    (hper : triggerPerson db0 t = some person)
    (hgen : gen person t = .ok draft)
    (haddr : resolveAddress person draft.media ≠ "") :
    processTrigger gen db0 acc t =
      updateTrigger
        (createMessage acc (brainInsert t pid draft (resolveAddress person draft.media)))
        t.id handledPatch := by
  simp [processTrigger, hpid, hper, h0, hgen, haddr]

lemma updateTrigger_handled (db : Db) (tid : Nat) :
    triggerStatusIs (updateTrigger db tid handledPatch) tid "handled" := by
  intro tr hmem hid
  unfold updateTrigger at hmem
  simp only [List.mem_map] at hmem
  obtain ⟨tr0, _, heq0⟩ := hmem
  by_cases hc : tr0.id = tid
  · rw [← heq0]; simp [hc, applyTriggerPatch, handledPatch]
  · rw [← heq0] at hid
    simp [hc] at hid

/-! ## Claim theorems -/

/-- C1 (amended): for every trigger in the snapshot fetched by one run of
`runMessageBrain` — the `status='new'` triggers, newest first, capped at 1000
by the storage layer — that has a (non-falsy) personId and an attached
person, when the generator returns a draft and the resolved address is
non-empty, the run appends exactly one message referencing that trigger, with
`status='draft'`, `personId` the trigger's personId, `conversationId=null`,
`from='us'`, the resolved address, and the draft's subject and content, and
the trigger's status becomes `handled`. -/
theorem runMessageBrain_drafts_and_handles_fetched
    (gen : Person → Trigger → Except String MessageDraft) (db : Db)
    (t : Trigger) (pid : Nat) (p : Person) (draft : MessageDraft)
    (hnodup : (db.triggers.map Trigger.id).Nodup)
    (hmem : t ∈ getTriggersByStatus db "new")
    (hpid : t.personId = some pid) (h0 : pid ≠ 0)
    (hper : triggerPerson db t = some p)
    (hgen : gen p t = .ok draft)
    (haddr : resolveAddress p draft.media ≠ "") :
    ∃ m : Message,
      msgsForTrigger (runMessageBrain gen db) t.id = msgsForTrigger db t.id ++ [m] ∧
      m.status = "draft" ∧ m.triggerId = some t.id ∧ m.personId = pid ∧
      m.conversationId = none ∧ m.from_ = "us" ∧
      m.address = resolveAddress p draft.media ∧
      m.subject = some draft.subject ∧ m.content = draft.content ∧
      triggerStatusIs (runMessageBrain gen db) t.id "handled" := by
  obtain ⟨l1, l2, hsnap⟩ := List.append_of_mem hmem
  have hsnodup := snapshot_id_nodup db "new" hnodup
  rw [hsnap] at hsnodup
  obtain ⟨hl1, hl2⟩ := nodup_split_map Trigger.id l1 l2 t hsnodup
  have hbrain : runMessageBrain gen db =
      l2.foldl (processTrigger gen db)
        (processTrigger gen db (l1.foldl (processTrigger gen db) db) t) := by
    unfold runMessageBrain
    rw [hsnap, List.foldl_append, List.foldl_cons]
  have hmid : msgsForTrigger (l1.foldl (processTrigger gen db) db) t.id =
      msgsForTrigger db t.id :=
    foldl_msgs_frame gen db t.id l1 db (fun u hu => Or.inr (hl1 u hu))
  have hhit := processTrigger_hit gen db (l1.foldl (processTrigger gen db) db)
    t pid p draft hpid h0 hper hgen haddr
  refine ⟨insertedMessage (l1.foldl (processTrigger gen db) db)
    (brainInsert t pid draft (resolveAddress p draft.media)), ?_, ?_, ?_, ?_, ?_, ?_, ?_, ?_, ?_, ?_⟩
  · rw [hbrain, foldl_msgs_frame gen db t.id l2 _ (fun u hu => Or.inr (hl2 u hu)), hhit,
      msgsForTrigger_updateTrigger, msgsForTrigger_createMessage_eq _ _ _ rfl, hmid]
  · rfl
  · rfl
  · rfl
  · rfl
  · rfl
  · rfl
  · rfl
  · rfl
  · rw [hbrain]
    refine foldl_handled gen db t.id l2 _ ?_
    rw [hhit]
    exact updateTrigger_handled _ t.id

/-- C3: a run of the trigger processor leaves every trigger whose `personId`
is null completely unmodified (the row survives as-is, status included) and
creates no message referencing it. -/
theorem runMessageBrain_skips_account_level
    (gen : Person → Trigger → Except String MessageDraft) (db : Db) (t : Trigger)
    (hnodup : (db.triggers.map Trigger.id).Nodup)
    (hmem : t ∈ db.triggers)
    (hpid : t.personId = none) :
    t ∈ (runMessageBrain gen db).triggers ∧
    msgsForTrigger (runMessageBrain gen db) t.id = msgsForTrigger db t.id := by
  have hcond : ∀ u ∈ getTriggersByStatus db "new",
      (∀ a : Db, processTrigger gen db a u = a) ∨ u.id ≠ t.id := by
    intro u hu
    by_cases hid : u.id = t.id
    · left
      have hut : u = t :=
        trigger_id_inj db hnodup u t (getTriggers_mem db 1000 0 (some "new") u hu) hmem hid
      rw [hut]
      exact processTrigger_skip_none gen db t hpid
    · right; exact hid
  unfold runMessageBrain
  exact ⟨foldl_trigger_mem gen db t _ db hcond hmem,
    foldl_msgs_frame gen db t.id _ db hcond⟩

/-- C4: the trigger processor resolves the destination address from the
person's channel matching the draft's media — `email` reads the email field,
`linkedin` the linkedin field, `twitter` the twitter field, and any other
media value falls back to email and then linkedin — and when the resolved
address is empty the trigger is skipped: its row (hence its status) is left
unmodified and no message referencing it is created. -/
theorem runMessageBrain_address_resolution
    (gen : Person → Trigger → Except String MessageDraft) (db : Db)
    (t : Trigger) (pid : Nat) (p : Person) (draft : MessageDraft)
    (hnodup : (db.triggers.map Trigger.id).Nodup)
    (hmem : t ∈ db.triggers)
    (hpid : t.personId = some pid)
    (hper : triggerPerson db t = some p)
    (hgen : gen p t = .ok draft) :
    resolveAddress p "email" = p.email.getD "" ∧
    resolveAddress p "linkedin" = p.linkedin.getD "" ∧
    resolveAddress p "twitter" = p.twitter.getD "" ∧
    (∀ med : String, strLower med ≠ "email" → strLower med ≠ "linkedin" →
      strLower med ≠ "twitter" →
      resolveAddress p med =
        (if p.email.getD "" = "" then p.linkedin.getD "" else p.email.getD "")) ∧
    (resolveAddress p draft.media = "" →
      t ∈ (runMessageBrain gen db).triggers ∧
      msgsForTrigger (runMessageBrain gen db) t.id = msgsForTrigger db t.id) := by
  refine ⟨rfl, rfl, rfl, ?_, ?_⟩
  · intro med h1 h2 h3
    unfold resolveAddress
    split
    · exact absurd (by assumption) h1
    · exact absurd (by assumption) h2
    · exact absurd (by assumption) h3
    · simp [jsOrStr]
  · intro haddr
    have hcond : ∀ u ∈ getTriggersByStatus db "new",
        (∀ a : Db, processTrigger gen db a u = a) ∨ u.id ≠ t.id := by
      intro u hu
      by_cases hid : u.id = t.id
      · left
        have hut : u = t :=
          trigger_id_inj db hnodup u t (getTriggers_mem db 1000 0 (some "new") u hu) hmem hid
        rw [hut]
        exact processTrigger_skip_addr gen db t pid p draft hpid hper hgen haddr
      · right; exact hid
    unfold runMessageBrain
    exact ⟨foldl_trigger_mem gen db t _ db hcond hmem,
      foldl_msgs_frame gen db t.id _ db hcond⟩

lemma scanOneNews_seen (account : Account) (acc : Db) (news : NewsResult)
    (h : ∃ t ∈ getTriggers acc 10 0 none, t.url = some news.link) :
    scanOneNews account acc news = acc := by
  unfold scanOneNews
  obtain ⟨t, hmem, hurl⟩ := h
  have hany : (getTriggers acc 10 0 none).any (fun t =>
      t.url == some news.link ||
      (strIncludes t.content news.title && t.accountId == some account.id)) = true := by
    rw [List.any_eq_true]
    exact ⟨t, hmem, by simp [hurl]⟩
  simp [hany]

/-- C2: with one account and one search hit, the first `scanAccountNews` run
creates exactly one trigger — account-scoped, `personId=null`,
`triggerType='news'`, `status='new'`, `url` the hit's link — and a second run
against the identical hit creates zero additional triggers: the pre-insert
existence check (url equality, or content containing the title with matching
accountId, over the 10 most recent triggers) matches the row just created. -/
theorem scanAccountNews_no_duplicate_trigger
    (db : Db) (acct : Account) (hit : NewsResult)
    (haccs : db.accounts = [acct])
    (htrig : db.triggers = []) :
    (scanAccountNews (fun _ => [hit]) db).triggers =
      [insertedTrigger db (newsInsert acct hit)] ∧
    (insertedTrigger db (newsInsert acct hit)).accountId = some acct.id ∧
    (insertedTrigger db (newsInsert acct hit)).personId = none ∧
    (insertedTrigger db (newsInsert acct hit)).triggerType = "news" ∧
    (insertedTrigger db (newsInsert acct hit)).status = "new" ∧
    (insertedTrigger db (newsInsert acct hit)).url = some hit.link ∧
    (scanAccountNews (fun _ => [hit]) (scanAccountNews (fun _ => [hit]) db)).triggers =
      (scanAccountNews (fun _ => [hit]) db).triggers := by
  have hacc1 : getAccounts db 100 0 = [acct] := by
    simp [getAccounts, haccs]
  have h1 : scanAccountNews (fun _ => [hit]) db = createTrigger db (newsInsert acct hit) := by
    unfold scanAccountNews
    rw [hacc1]
    simp [scanOneNews, getTriggers, htrig]
  have h3 : (createTrigger db (newsInsert acct hit)).triggers =
      [insertedTrigger db (newsInsert acct hit)] := by
    simp [createTrigger, htrig]
  have hacc2 : getAccounts (createTrigger db (newsInsert acct hit)) 100 0 = [acct] := by
    simp [getAccounts, createTrigger, haccs]
  have h4 : scanAccountNews (fun _ => [hit]) (createTrigger db (newsInsert acct hit)) =
      createTrigger db (newsInsert acct hit) := by
    unfold scanAccountNews
    rw [hacc2]
    simp only [List.foldl_cons, List.foldl_nil]
    exact scanOneNews_seen acct _ hit
      ⟨insertedTrigger db (newsInsert acct hit), by simp [getTriggers, h3], rfl⟩
  refine ⟨by rw [h1]; exact h3, rfl, rfl, rfl, rfl, rfl, ?_⟩
  rw [h1, h4]

/-! ## Helper lemmas: the mailer -/

lemma updateMessage_status_at (db : Db) (mid : Nat) (patch : MessagePatch) (s : String)
    (hs : patch.status = some s) :
    ∀ r ∈ (updateMessage db mid patch).messages, r.id = mid → r.status = s := by
  intro r hmem hid
  unfold updateMessage at hmem
  simp only [List.mem_map] at hmem
  obtain ⟨x, hx, heq⟩ := hmem
  by_cases hc : x.id = mid
  · rw [← heq]; simp [hc, applyMessagePatch, hs]
  · rw [← heq] at hid; simp [hc] at hid

lemma updateMessage_sentAt_at (db : Db) (mid : Nat) (patch : MessagePatch) (v : Option Nat)
    (hv : patch.sentAt = some v) :
    ∀ r ∈ (updateMessage db mid patch).messages, r.id = mid → r.sentAt = v := by
  intro r hmem hid
  unfold updateMessage at hmem
  simp only [List.mem_map] at hmem
  obtain ⟨x, hx, heq⟩ := hmem
  by_cases hc : x.id = mid
  · rw [← heq]; simp [hc, applyMessagePatch, hv]
  · rw [← heq] at hid; simp [hc] at hid

lemma updateMessage_map_sentAt (db : Db) (mid : Nat) (patch : MessagePatch)
    (h : patch.sentAt = none) :
    (updateMessage db mid patch).messages.map Message.sentAt =
      db.messages.map Message.sentAt := by
  unfold updateMessage
  simp only [List.map_map]
  apply List.map_congr_left
  intro x hx
  by_cases hc : x.id = mid <;> simp [hc, applyMessagePatch, h]

lemma sendEmail_fail_eq (db : Db) (transport : String → Bool) (m : Message)
    (person : Option Person)
    (hmedia : m.media = "email") (husable : personEmailUsable person = true)
    (htr : transport (mailTo m person) = false) :
    sendEmail db transport m person = (updateMessage db m.id failedPatch, false) := by
  simp [sendEmail, hmedia, husable, htr]

lemma sendEmail_ok_eq (db : Db) (transport : String → Bool) (m : Message)
    (person : Option Person)
    (hmedia : m.media = "email") (husable : personEmailUsable person = true)
    (htr : transport (mailTo m person) = true) :
    sendEmail db transport m person = (updateMessage db m.id (sentPatch db.now), true) := by
  simp [sendEmail, hmedia, husable, htr]

lemma sendEmail_unusable_eq (db : Db) (transport : String → Bool) (m : Message)
    (person : Option Person) (hu : personEmailUsable person = false) :
    sendEmail db transport m person = (updateMessage db m.id failedPatch, false) := by
  by_cases hm : m.media = "email"
  · simp [sendEmail, hm, hu]
  · simp [sendEmail, hm]

/-- C5 (amended): calling the mailer's send operation on a message whose media
is not `email`, or whose person has no usable email address, performs no
delivery and returns `false`, but it is not side-effect free: the shared
catch handler sets the message's status to `failed` (touching `updatedAt`). -/
theorem sendEmail_precondition_failure
    (db : Db) (transport : String → Bool) (m : Message) (person : Option Person)
    (h : m.media ≠ "email" ∨ personEmailUsable person = false) :
    sendEmail db transport m person = (updateMessage db m.id failedPatch, false) ∧
    ∀ r ∈ (sendEmail db transport m person).1.messages, r.id = m.id →
      r.status = "failed" := by
  have h1 : sendEmail db transport m person = (updateMessage db m.id failedPatch, false) := by
    rcases h with hm | hu
    · simp [sendEmail, hm]
    · by_cases hm : m.media = "email"
      · simp [sendEmail, hm, hu]
      · simp [sendEmail, hm]
  refine ⟨h1, ?_⟩
  rw [h1]
  exact updateMessage_status_at db m.id failedPatch "failed" rfl

/-- C6: under the preconditions (media `email`, usable person email), a
transport failure makes `sendEmail` set the message's status to `failed`,
leave every row's `sentAt` untouched (so a null `sentAt` stays null), and
return `false` — the single transport attempt is never retried — while a
successful delivery sets `status='sent'`, `sentAt` to the current time, and
returns `true`. -/
theorem sendEmail_outcomes
    (db : Db) (transport : String → Bool) (m : Message) (person : Option Person)
    (hmedia : m.media = "email")
    (husable : personEmailUsable person = true) :
    (transport (mailTo m person) = false →
      (sendEmail db transport m person).2 = false ∧
      (sendEmail db transport m person).1.messages.map Message.sentAt =
        db.messages.map Message.sentAt ∧
      ∀ r ∈ (sendEmail db transport m person).1.messages, r.id = m.id →
        r.status = "failed") ∧
    (transport (mailTo m person) = true →
      (sendEmail db transport m person).2 = true ∧
      ∀ r ∈ (sendEmail db transport m person).1.messages, r.id = m.id →
        r.status = "sent" ∧ r.sentAt = some db.now) := by
  constructor
  · intro htr
    have he := sendEmail_fail_eq db transport m person hmedia husable htr
    refine ⟨by rw [he], ?_, ?_⟩
    · rw [he]
      exact updateMessage_map_sentAt db m.id failedPatch rfl
    · rw [he]
      exact updateMessage_status_at db m.id failedPatch "failed" rfl
  · intro htr
    have he := sendEmail_ok_eq db transport m person hmedia husable htr
    refine ⟨by rw [he], ?_⟩
    intro r hmem hid
    rw [he] at hmem
    exact ⟨updateMessage_status_at db m.id (sentPatch db.now) "sent" rfl r hmem hid,
      updateMessage_sentAt_at db m.id (sentPatch db.now) (some db.now) rfl r hmem hid⟩

/-- C10: when a message's stored address is empty but its person has a
non-empty email, `sendEmail` does not fail on the address: the destination
falls back to the person's email field (`message.address ||
message.person.email`), and the send outcome is exactly the transport's
verdict on that email address. -/
theorem sendEmail_empty_address_fallback
    (db : Db) (transport : String → Bool) (m : Message) (p : Person) (e : String)
    (hmedia : m.media = "email") (haddr : m.address = "")
    (hemail : p.email = some e) (hne : e ≠ "") :
    mailTo m (some p) = e ∧
    (sendEmail db transport m (some p)).2 = transport e := by
  have hto : mailTo m (some p) = e := by
    simp [mailTo, jsOrStr, haddr, hemail]
  have husable : personEmailUsable (some p) = true := by
    simp [personEmailUsable, hemail, hne]
  refine ⟨hto, ?_⟩
  cases htr : transport e
  · rw [sendEmail_fail_eq db transport m (some p) hmedia husable (by rw [hto]; exact htr)]
  · rw [sendEmail_ok_eq db transport m (some p) hmedia husable (by rw [hto]; exact htr)]

/-- C8 counterexample: a reply whose content is malformed (unparseable JSON)
makes `generateMessage` raise — it does not return the deterministic
defaults. -/
theorem generateMessage_malformed_cex :
    generateMessage janeW trigW (.reply (some .malformed)) =
      .error ("Failed to generate message: " ++ "Unexpected token in JSON") := rfl

/-- C8 (amended): a generation call whose response parses but has missing (or
empty) fields — including a null response body, treated as `'{}'` — returns
deterministic defaults: subject `Following up on {triggerType}`, a fixed
fallback content sentence, tone `professional`, media `email`; present
non-empty fields are passed through; a call failure, or a response that fails
to parse as JSON, raises an error that propagates to the caller. -/
theorem generateMessage_defaults_and_errors (p : Person) (t : Trigger) :
    generateMessage p t (.reply none) =
      .ok { subject := "Following up on " ++ t.triggerType,
            content := "Hello, I wanted to reach out regarding recent developments.",
            tone := "professional", media := "email" } ∧
    generateMessage p t (.reply (some (.obj none none none none))) =
      .ok { subject := "Following up on " ++ t.triggerType,
            content := "Hello, I wanted to reach out regarding recent developments.",
            tone := "professional", media := "email" } ∧
    (∀ s c tn md : String, s ≠ "" → c ≠ "" → tn ≠ "" → md ≠ "" →
      generateMessage p t (.reply (some (.obj (some s) (some c) (some tn) (some md)))) =
        .ok { subject := s, content := c, tone := tn, media := md }) ∧
    (∀ e, generateMessage p t (.failure e) =
      .error ("Failed to generate message: " ++ e)) ∧
    (∃ msg, generateMessage p t (.reply (some .malformed)) = .error msg) := by
  refine ⟨rfl, rfl, ?_, fun e => rfl, ⟨_, rfl⟩⟩
  intro s c tn md hs hc htn hmd
  simp [generateMessage, jsOrOptStr, jsOrStr, hs, hc, htn, hmd]

/-! ## Helper lemmas: the sent-message invariant -/

lemma pres_updateMessage_failed (db : Db) (mid : Nat)
    (h1 : sentOk db) (h2 : clockOk db) :
    sentOk (updateMessage db mid failedPatch) ∧
    clockOk (updateMessage db mid failedPatch) := by
  constructor
  · intro r hmem hs
    unfold updateMessage at hmem
    simp only [List.mem_map] at hmem
    obtain ⟨x, hx, heq⟩ := hmem
    by_cases hc : x.id = mid
    · rw [← heq] at hs
      simp [hc, applyMessagePatch, failedPatch] at hs
    · have hrx : r = x := by rw [← heq]; simp [hc]
      rw [hrx] at hs ⊢
      exact h1 x hx hs
  · intro r hmem
    unfold updateMessage at hmem
    simp only [List.mem_map] at hmem
    obtain ⟨x, hx, heq⟩ := hmem
    have hcreated : r.createdAt = x.createdAt := by
      rw [← heq]
      by_cases hc : x.id = mid <;> simp [hc, applyMessagePatch]
    have hnow : (updateMessage db mid failedPatch).now = db.now := rfl
    rw [hnow, hcreated]
    exact h2 x hx

lemma pres_updateMessage_sent (db : Db) (mid : Nat)
    (h1 : sentOk db) (h2 : clockOk db) :
    sentOk (updateMessage db mid (sentPatch db.now)) ∧
    clockOk (updateMessage db mid (sentPatch db.now)) := by
  constructor
  · intro r hmem hs
    unfold updateMessage at hmem
    simp only [List.mem_map] at hmem
    obtain ⟨x, hx, heq⟩ := hmem
    by_cases hc : x.id = mid
    · refine ⟨db.now, ?_, ?_⟩
      · rw [← heq]; simp [hc, applyMessagePatch, sentPatch]
      · have : r.createdAt = x.createdAt := by
          rw [← heq]; simp [hc, applyMessagePatch]
        rw [this]
        exact h2 x hx
    · have hrx : r = x := by rw [← heq]; simp [hc]
      rw [hrx] at hs ⊢
      exact h1 x hx hs
  · intro r hmem
    unfold updateMessage at hmem
    simp only [List.mem_map] at hmem
    obtain ⟨x, hx, heq⟩ := hmem
    have hcreated : r.createdAt = x.createdAt := by
      rw [← heq]
      by_cases hc : x.id = mid <;> simp [hc, applyMessagePatch]
    have hnow : (updateMessage db mid (sentPatch db.now)).now = db.now := rfl
    rw [hnow, hcreated]
    exact h2 x hx

lemma sendEmail_fst_cases (db : Db) (transport : String → Bool) (m : Message)
    (person : Option Person) :
    (sendEmail db transport m person).1 = updateMessage db m.id failedPatch ∨
    (sendEmail db transport m person).1 = updateMessage db m.id (sentPatch db.now) := by
  unfold sendEmail
  split_ifs <;> first
    | exact Or.inl rfl
    | exact Or.inr rfl

lemma sendEmail_pres (db : Db) (transport : String → Bool) (m : Message)
    (person : Option Person) (h1 : sentOk db) (h2 : clockOk db) :
    sentOk (sendEmail db transport m person).1 ∧
    clockOk (sendEmail db transport m person).1 := by
  rcases sendEmail_fst_cases db transport m person with heq | heq <;> rw [heq]
  · exact pres_updateMessage_failed db m.id h1 h2
  · exact pres_updateMessage_sent db m.id h1 h2

lemma pres_createMessage (db : Db) (ins : InsertMessage)
    (hstatus : ins.status ≠ "sent") (h1 : sentOk db) (h2 : clockOk db) :
    sentOk (createMessage db ins) ∧ clockOk (createMessage db ins) := by
  constructor
  · intro r hmem hs
    unfold createMessage at hmem
    simp only [List.mem_append, List.mem_singleton] at hmem
    rcases hmem with hold | hnew
    · exact h1 r hold hs
    · rw [hnew] at hs
      exact absurd hs hstatus
  · intro r hmem
    unfold createMessage at hmem
    simp only [List.mem_append, List.mem_singleton] at hmem
    have hnow : (createMessage db ins).now = db.now := rfl
    rw [hnow]
    rcases hmem with hold | hnew
    · exact h2 r hold
    · rw [hnew]
      exact le_refl _

lemma pres_processTrigger (gen : Person → Trigger → Except String MessageDraft)
    (db0 acc : Db) (t : Trigger) (h1 : sentOk acc) (h2 : clockOk acc) :
    sentOk (processTrigger gen db0 acc t) ∧ clockOk (processTrigger gen db0 acc t) := by
  rcases processTrigger_cases gen db0 acc t with heq | ⟨pid, person, draft, _, _, _, _, _, heq⟩
  · rw [heq]; exact ⟨h1, h2⟩
  · rw [heq]
    have hcm := pres_createMessage acc
      (brainInsert t pid draft (resolveAddress person draft.media))
      (by simp [brainInsert]) h1 h2
    exact hcm

lemma foldl_pres_inv {α : Type} (f : Db → α → Db) (P : Db → Prop)
    (hf : ∀ d a, P d → P (f d a)) :
    ∀ (l : List α) (d : Db), P d → P (l.foldl f d) := by
  intro l
  induction l with
  | nil => intro d h; exact h
  | cons a rest ih =>
    intro d h
    rw [List.foldl_cons]
    exact ih _ (hf d a h)

lemma pres_sendPendingEmails (db : Db) (transport : String → Bool)
    (h1 : sentOk db) (h2 : clockOk db) :
    sentOk (sendPendingEmails db transport) ∧ clockOk (sendPendingEmails db transport) := by
  unfold sendPendingEmails
  exact foldl_pres_inv _ (fun d => sentOk d ∧ clockOk d)
    (fun d m hd => sendEmail_pres d transport m (personOf db m.personId) hd.1 hd.2)
    _ db ⟨h1, h2⟩

lemma pres_runMessageBrain (gen : Person → Trigger → Except String MessageDraft)
    (db : Db) (h1 : sentOk db) (h2 : clockOk db) :
    sentOk (runMessageBrain gen db) ∧ clockOk (runMessageBrain gen db) := by
  unfold runMessageBrain
  exact foldl_pres_inv _ (fun d => sentOk d ∧ clockOk d)
    (fun d t hd => pres_processTrigger gen db d t hd.1 hd.2)
    _ db ⟨h1, h2⟩

/-- C7 (amended): across any sequence of the pipeline's own operations —
clock ticks, mailer sends, pending-email sweeps, and trigger-processor runs —
every message with `status='sent'` has a non-null `sentAt` that is at least
its `createdAt`; the raw storage `updateMessage` operation, however, can
violate the invariant (see the counterexample: a patch that sets
`status='sent'` without supplying `sentAt`). -/
theorem pipeline_preserves_sentAt_invariant (db : Db)
    (h1 : sentOk db) (h2 : clockOk db) (ops : List SysOp) :
    sentOk (ops.foldl applySysOp db) ∧ clockOk (ops.foldl applySysOp db) := by
  refine foldl_pres_inv applySysOp (fun d => sentOk d ∧ clockOk d) ?_ ops db ⟨h1, h2⟩
  intro d op hd
  cases op with
  | tick dt =>
    refine ⟨hd.1, ?_⟩
    intro m hm
    exact le_trans (hd.2 m hm) (Nat.le_add_right _ _)
  | mailerSend m person transport =>
    exact sendEmail_pres d transport m person hd.1 hd.2
  | sendPendingOp transport =>
    exact pres_sendPendingEmails d transport hd.1 hd.2
  | brainOp gen =>
    exact pres_runMessageBrain gen d hd.1 hd.2

/-- C7 counterexample: from a state satisfying the invariant, one
`updateMessage` call that sets `status='sent'` without supplying `sentAt`
(the shape of the `PUT /api/messages/:id` route body) leaves a sent message
with a null `sentAt`, violating the invariant. -/
theorem sentAt_invariant_updateMessage_cex :
    sentOk dbC7 ∧ ¬ sentOk (updateMessage dbC7 1 sentOnlyPatch) := by
  constructor
  · intro m hm hs
    have hmm : m = msgC7 := by simpa [dbC7] using hm
    rw [hmm] at hs
    exact absurd hs (by decide)
  · intro h
    have hmem : applyMessagePatch 5 sentOnlyPatch msgC7 ∈
        (updateMessage dbC7 1 sentOnlyPatch).messages := by
      simp [updateMessage, dbC7, msgC7, applyMessagePatch, sentOnlyPatch]
    obtain ⟨ts, hts, _⟩ := h _ hmem (by decide)
    rw [show (applyMessagePatch 5 sentOnlyPatch msgC7).sentAt = none from rfl] at hts
    exact Option.noConfusion hts

/-! ## Helper lemmas: the pending-email sweep -/

lemma updateMessage_status_frame (db : Db) (mid : Nat) (patch : MessagePatch)
    (id : Nat) (s : String) (hne : mid ≠ id) (h : msgStatusIs db id s) :
    msgStatusIs (updateMessage db mid patch) id s := by
  intro r hmem hid
  unfold updateMessage at hmem
  simp only [List.mem_map] at hmem
  obtain ⟨x, hx, heq⟩ := hmem
  by_cases hc : x.id = mid
  · have hidx : r.id = x.id := by
      rw [← heq]; simp [hc, applyMessagePatch]
    rw [hidx, hc] at hid
    exact absurd hid hne
  · have hrx : r = x := by rw [← heq]; simp [hc]
    rw [hrx] at hid ⊢
    exact h x hx hid

lemma sendEmail_status_frame (acc : Db) (transport : String → Bool) (m : Message)
    (person : Option Person) (id : Nat) (s : String) (hne : m.id ≠ id)
    (h : msgStatusIs acc id s) :
    msgStatusIs (sendEmail acc transport m person).1 id s := by
  rcases sendEmail_fst_cases acc transport m person with heq | heq <;> rw [heq]
  · exact updateMessage_status_frame acc m.id failedPatch id s hne h
  · exact updateMessage_status_frame acc m.id (sentPatch acc.now) id s hne h

lemma sendEmail_row_frame (acc : Db) (transport : String → Bool) (m : Message)
    (person : Option Person) (r : Message) (hmem : r ∈ acc.messages)
    (hne : r.id ≠ m.id) :
    r ∈ (sendEmail acc transport m person).1.messages := by
  rcases sendEmail_fst_cases acc transport m person with heq | heq <;> rw [heq] <;>
    (unfold updateMessage
     simp only [List.mem_map]
     exact ⟨r, hmem, by simp [hne]⟩)

lemma sendEmail_hit_status (acc : Db) (transport : String → Bool) (m : Message)
    (person : Option Person) (hmedia : m.media = "email") :
    msgStatusIs (sendEmail acc transport m person).1 m.id
      (sendOutcome transport person m) := by
  by_cases hu : personEmailUsable person = true
  · by_cases ht : transport (mailTo m person) = true
    · rw [sendEmail_ok_eq acc transport m person hmedia hu ht,
        show sendOutcome transport person m = "sent" from by simp [sendOutcome, hu, ht]]
      exact updateMessage_status_at acc m.id (sentPatch acc.now) "sent" rfl
    · have ht2 : transport (mailTo m person) = false := by
        cases h2 : transport (mailTo m person)
        · rfl
        · exact absurd h2 ht
      rw [sendEmail_fail_eq acc transport m person hmedia hu ht2,
        show sendOutcome transport person m = "failed" from by simp [sendOutcome, ht2]]
      exact updateMessage_status_at acc m.id failedPatch "failed" rfl
  · have hu2 : personEmailUsable person = false := by
      cases h2 : personEmailUsable person
      · rfl
      · exact absurd h2 hu
    rw [sendEmail_unusable_eq acc transport m person hu2,
      show sendOutcome transport person m = "failed" from by simp [sendOutcome, hu2]]
    exact updateMessage_status_at acc m.id failedPatch "failed" rfl

lemma foldl_send_status_frame (db0 : Db) (transport : String → Bool)
    (id : Nat) (s : String) :
    ∀ (l : List Message) (acc : Db), (∀ m ∈ l, m.id ≠ id) → msgStatusIs acc id s →
      msgStatusIs
        (l.foldl (fun a m => (sendEmail a transport m (personOf db0 m.personId)).1) acc)
        id s := by
  intro l
  induction l with
  | nil => intro acc _ h; exact h
  | cons m rest ih =>
    intro acc hl h
    rw [List.foldl_cons]
    exact ih _ (fun u hu => hl u (List.mem_cons_of_mem m hu))
      (sendEmail_status_frame acc transport m _ id s (hl m (List.mem_cons_self m rest)) h)

lemma foldl_send_row_frame (db0 : Db) (transport : String → Bool) (r : Message) :
    ∀ (l : List Message) (acc : Db), (∀ m ∈ l, m.id ≠ r.id) → r ∈ acc.messages →
      r ∈ (l.foldl (fun a m => (sendEmail a transport m (personOf db0 m.personId)).1)
        acc).messages := by
  intro l
  induction l with
  | nil => intro acc _ h; exact h
  | cons m rest ih =>
    intro acc hl h
    rw [List.foldl_cons]
    exact ih _ (fun u hu => hl u (List.mem_cons_of_mem m hu))
      (sendEmail_row_frame acc transport m _ r h
        (fun hc => hl m (List.mem_cons_self m rest) hc.symm))

lemma getMessages_sublist (db : Db) (limit offset : Nat) (status : Option String) :
    List.Sublist (getMessages db limit offset status) db.messages.reverse := by
  unfold getMessages
  rcases status with _ | s
  · exact (List.take_sublist _ _).trans (List.drop_sublist _ _)
  · exact ((List.take_sublist _ _).trans (List.drop_sublist _ _)).trans
      (List.filter_sublist _)

lemma pendingEmails_id_nodup (db : Db)
    (hnodup : (db.messages.map Message.id).Nodup) :
    (((getMessagesByStatus db "to_send").filter
      (fun (m : Message) => m.media == "email")).map Message.id).Nodup := by
  have hsub : List.Sublist
      ((getMessagesByStatus db "to_send").filter (fun (m : Message) => m.media == "email"))
      db.messages.reverse :=
    (List.filter_sublist _).trans (getMessages_sublist db 1000 0 (some "to_send"))
  refine (hsub.map Message.id).nodup ?_
  rw [List.map_reverse]
  exact List.nodup_reverse.mpr hnodup

/-- C9 (amended): `sendPendingEmails` fetches the up-to-1000 most recent
messages with `status='to_send'` (the storage cap on `getMessagesByStatus`),
attempts a send for exactly the fetched messages whose media is `email` —
processing them sequentially, each ending `sent` or `failed` according only
to its own person lookup and transport verdict, so one failure does not
prevent the remaining sends — and leaves every message whose id is not among
those attempted untouched. -/
theorem sendPendingEmails_processes_fetched (db : Db) (transport : String → Bool)
    (hnodup : (db.messages.map Message.id).Nodup) :
    (∀ mm ∈ (getMessagesByStatus db "to_send").filter
        (fun (m : Message) => m.media == "email"),
      msgStatusIs (sendPendingEmails db transport) mm.id
        (sendOutcome transport (personOf db mm.personId) mm)) ∧
    (∀ r ∈ db.messages,
      (∀ mm ∈ (getMessagesByStatus db "to_send").filter
          (fun (m : Message) => m.media == "email"),
        mm.id ≠ r.id) →
      r ∈ (sendPendingEmails db transport).messages) := by
  constructor
  · intro mm hmm
    have hmedia : mm.media = "email" := by
      have hb := (List.mem_filter.mp hmm).2
      exact eq_of_beq hb
    obtain ⟨l1, l2, hsplit⟩ := List.append_of_mem hmm
    have hnodupE := pendingEmails_id_nodup db hnodup
    rw [hsplit] at hnodupE
    obtain ⟨hl1, hl2⟩ := nodup_split_map Message.id l1 l2 mm hnodupE
    have hrun : sendPendingEmails db transport =
        (l1 ++ mm :: l2).foldl
          (fun a m => (sendEmail a transport m (personOf db m.personId)).1) db := by
      rw [← hsplit]; rfl
    rw [hrun, List.foldl_append, List.foldl_cons]
    exact foldl_send_status_frame db transport mm.id _ l2 _ (fun u hu => hl2 u hu)
      (sendEmail_hit_status _ transport mm (personOf db mm.personId) hmedia)
  · intro r hr hnone
    have hrun : sendPendingEmails db transport =
        ((getMessagesByStatus db "to_send").filter
          (fun (m : Message) => m.media == "email")).foldl
          (fun a m => (sendEmail a transport m (personOf db m.personId)).1) db := rfl
    rw [hrun]
    exact foldl_send_row_frame db transport r _ db (fun m hm => hnone m hm) hr

/-! ## Helper lemmas: the 1000-row fetch cap -/

lemma take_1000_reverse {α : Type} (l : List α) (h : l.length = 1001) :
    l.reverse.take 1000 = (l.drop 1).reverse := by
  cases l with
  | nil => simp at h
  | cons a t =>
    have ht : t.length = 1000 := by simp at h; omega
    rw [List.reverse_cons, List.take_left' (by simp [ht] : t.reverse.length = 1000)]
    simp

set_option maxRecDepth 4000 in
lemma db1001_filter_eq :
    db1001.messages.filter (fun (m : Message) => m.status == "to_send") =
      db1001.messages := by
  refine List.filter_eq_self.mpr ?_
  intro a ha
  obtain ⟨i, _, rfl⟩ := List.mem_map.mp ha
  rfl

set_option maxRecDepth 4000 in
lemma db1001_fetch_eq :
    getMessagesByStatus db1001 "to_send" = (db1001.messages.drop 1).reverse := by
  unfold getMessagesByStatus getMessages
  dsimp only
  rw [List.filter_reverse, db1001_filter_eq, List.drop_zero]
  exact take_1000_reverse _ (by simp [db1001])

set_option maxRecDepth 4000 in
/-- C9 counterexample: with 1001 queued email messages, `sendPendingEmails`'s
fetch does not return all `status='to_send'` messages: 1001 such messages
exist, the fetch returns 1000, and the oldest queued email message (id 1) is
absent from it, so no send is ever attempted for it during the sweep. -/
theorem sendPending_fetch_cap_cex :
    (db1001.messages.filter
      (fun (m : Message) => m.status == "to_send" && m.media == "email")).length = 1001 ∧
    (getMessagesByStatus db1001 "to_send").length = 1000 ∧
    mkPendingMsg 0 ∈ db1001.messages ∧
    (mkPendingMsg 0).status = "to_send" ∧ (mkPendingMsg 0).media = "email" ∧
    ∀ mm ∈ getMessagesByStatus db1001 "to_send", mm.id ≠ (mkPendingMsg 0).id := by
  refine ⟨?_, ?_, ?_, rfl, rfl, ?_⟩
  · have hall : db1001.messages.filter
        (fun (m : Message) => m.status == "to_send" && m.media == "email") =
        db1001.messages := by
      refine List.filter_eq_self.mpr ?_
      intro a ha
      obtain ⟨i, _, rfl⟩ := List.mem_map.mp ha
      rfl
    rw [hall]
    simp [db1001]
  · rw [db1001_fetch_eq]
    simp [db1001]
  · exact List.mem_map.mpr ⟨0, by simp, rfl⟩
  · intro mm hmm
    rw [db1001_fetch_eq] at hmm
    rw [List.mem_reverse] at hmm
    have : db1001.messages.drop 1 =
        ((List.range 1000).map Nat.succ).map mkPendingMsg := by
      show ((List.range 1001).map mkPendingMsg).drop 1 = _
      rw [← List.map_drop, List.range_succ_eq_map]
      rfl
    rw [this] at hmm
    obtain ⟨j, _, rfl⟩ := List.mem_map.mp hmm
    obtain ⟨i, _, rfl⟩ := List.mem_map.mp (by assumption : j ∈ (List.range 1000).map Nat.succ)
    simp [mkPendingMsg]

/-! ## Helper lemmas: the trigger fetch cap -/

set_option maxRecDepth 4000 in
lemma dbT1001_filter_eq :
    dbT1001.triggers.filter (fun (t : Trigger) => t.status == "new") =
      dbT1001.triggers := by
  refine List.filter_eq_self.mpr ?_
  intro a ha
  obtain ⟨i, _, rfl⟩ := List.mem_map.mp ha
  rfl

set_option maxRecDepth 4000 in
lemma dbT1001_fetch_eq :
    getTriggersByStatus dbT1001 "new" = (dbT1001.triggers.drop 1).reverse := by
  unfold getTriggersByStatus getTriggers
  dsimp only
  rw [List.filter_reverse, dbT1001_filter_eq, List.drop_zero]
  exact take_1000_reverse _ (by simp [dbT1001])

set_option maxRecDepth 4000 in
lemma dbT1001_snapshot_ids :
    ∀ u ∈ getTriggersByStatus dbT1001 "new", u.id ≠ 1 := by
  intro u hu
  rw [dbT1001_fetch_eq, List.mem_reverse] at hu
  have : dbT1001.triggers.drop 1 =
      ((List.range 1000).map Nat.succ).map mkNewTrig := by
    show ((List.range 1001).map mkNewTrig).drop 1 = _
    rw [← List.map_drop, List.range_succ_eq_map]
    rfl
  rw [this] at hu
  obtain ⟨j, _, rfl⟩ := List.mem_map.mp hu
  obtain ⟨i, _, rfl⟩ := List.mem_map.mp (by assumption : j ∈ (List.range 1000).map Nat.succ)
  simp [mkNewTrig]

set_option maxRecDepth 4000 in
/-- C1 counterexample: with 1001 new triggers for Jane — all with an attached
person, a generator stub returning an email draft, and a resolvable address —
one run of `runMessageBrain` does not draft the oldest trigger (id 1): it is
outside the 1000-row fetch, so zero messages referencing it are created and
its row survives unmodified with status `new`. -/
theorem runMessageBrain_bounded_fetch_cex :
    mkNewTrig 0 ∈ dbT1001.triggers ∧
    (mkNewTrig 0).status = "new" ∧ (mkNewTrig 0).personId = some 1 ∧
    triggerPerson dbT1001 (mkNewTrig 0) = some janeW ∧
    genStubW janeW (mkNewTrig 0) =
      .ok { subject := "S", content := "C", tone := "professional", media := "email" } ∧
    resolveAddress janeW "email" = "jane@x.com" ∧
    msgsForTrigger (runMessageBrain genStubW dbT1001) (mkNewTrig 0).id = [] ∧
    mkNewTrig 0 ∈ (runMessageBrain genStubW dbT1001).triggers := by
  have hcond : ∀ u ∈ getTriggersByStatus dbT1001 "new",
      (∀ a : Db, processTrigger genStubW dbT1001 a u = a) ∨ u.id ≠ (mkNewTrig 0).id :=
    fun u hu => Or.inr (dbT1001_snapshot_ids u hu)
  refine ⟨List.mem_map.mpr ⟨0, by simp, rfl⟩, rfl, rfl, rfl, rfl, rfl, ?_, ?_⟩
  · have h := foldl_msgs_frame genStubW dbT1001 (mkNewTrig 0).id
      (getTriggersByStatus dbT1001 "new") dbT1001 hcond
    unfold runMessageBrain
    rw [h]
    rfl
  · unfold runMessageBrain
    exact foldl_trigger_mem genStubW dbT1001 (mkNewTrig 0)
      (getTriggersByStatus dbT1001 "new") dbT1001 hcond
      (List.mem_map.mpr ⟨0, by simp, rfl⟩)

/-- C5 counterexample: sending an `sms` message returns `false` but does have
a side effect — the stored message's status flips from `to_send` to `failed`,
so the record is not left unchanged. -/
theorem sendEmail_precondition_modifies_cex :
    (sendEmail dbC5 (fun _ => true) msgC5 none).2 = false ∧
    msgC5.status = "to_send" ∧
    (sendEmail dbC5 (fun _ => true) msgC5 none).1.messages.map Message.status =
      ["failed"] :=
  ⟨rfl, rfl, rfl⟩

/-! ## Witnesses -/

/-- Witness for C1's theorem at the Jane scenario. -/
theorem runMessageBrain_drafts_and_handles_fetched_witness :
    ∃ m : Message,
      msgsForTrigger (runMessageBrain genStubW dbW1) 1 = msgsForTrigger dbW1 1 ++ [m] ∧
      m.status = "draft" ∧ m.triggerId = some 1 ∧ m.personId = 1 ∧
      m.conversationId = none ∧ m.from_ = "us" ∧
      m.address = "jane@x.com" ∧
      m.subject = some "S" ∧ m.content = "C" ∧
      triggerStatusIs (runMessageBrain genStubW dbW1) 1 "handled" :=
  runMessageBrain_drafts_and_handles_fetched genStubW dbW1 trigW 1 janeW
    { subject := "S", content := "C", tone := "professional", media := "email" }
    (by decide) (by decide) rfl (by decide) rfl rfl (by decide)

/-- Witness for C2's theorem at the Acme scenario. -/
theorem scanAccountNews_no_duplicate_trigger_witness :
    (scanAccountNews (fun _ => [hitW]) dbW2).triggers =
      [insertedTrigger dbW2 (newsInsert acctW hitW)] ∧
    (insertedTrigger dbW2 (newsInsert acctW hitW)).accountId = some acctW.id ∧
    (insertedTrigger dbW2 (newsInsert acctW hitW)).personId = none ∧
    (insertedTrigger dbW2 (newsInsert acctW hitW)).triggerType = "news" ∧
    (insertedTrigger dbW2 (newsInsert acctW hitW)).status = "new" ∧
    (insertedTrigger dbW2 (newsInsert acctW hitW)).url = some hitW.link ∧
    (scanAccountNews (fun _ => [hitW]) (scanAccountNews (fun _ => [hitW]) dbW2)).triggers =
      (scanAccountNews (fun _ => [hitW]) dbW2).triggers :=
  scanAccountNews_no_duplicate_trigger dbW2 acctW hitW rfl rfl

/-- Witness for C3's theorem at a concrete account-level trigger. -/
theorem runMessageBrain_skips_account_level_witness :
    trigAccW ∈ (runMessageBrain genStubW dbW3).triggers ∧
    msgsForTrigger (runMessageBrain genStubW dbW3) 1 = msgsForTrigger dbW3 1 :=
  runMessageBrain_skips_account_level genStubW dbW3 trigAccW (by decide) (by decide) rfl

/-- Witness for C4's theorem at the channel-less Jane scenario. -/
theorem runMessageBrain_address_resolution_witness :
    resolveAddress noChannelW "email" = "" ∧
    trigW ∈ (runMessageBrain genStubW dbW4).triggers ∧
    msgsForTrigger (runMessageBrain genStubW dbW4) 1 = msgsForTrigger dbW4 1 :=
  (fun h => ⟨h.1, (h.2.2.2.2 (by decide)).1, (h.2.2.2.2 (by decide)).2⟩)
    (runMessageBrain_address_resolution genStubW dbW4 trigW 1 noChannelW
      { subject := "S", content := "C", tone := "professional", media := "email" }
      (by decide) (by decide) rfl rfl rfl)

/-- Witness for C5's amended theorem at the `sms` message. -/
theorem sendEmail_precondition_failure_witness :
    sendEmail dbC5 (fun _ => true) msgC5 none =
      (updateMessage dbC5 msgC5.id failedPatch, false) ∧
    ∀ r ∈ (sendEmail dbC5 (fun _ => true) msgC5 none).1.messages, r.id = msgC5.id →
      r.status = "failed" :=
  sendEmail_precondition_failure dbC5 (fun _ => true) msgC5 none (Or.inl (by decide))

/-- Witness for C6's theorem at a concrete queued email message, for a
throwing and a delivering transport. -/
theorem sendEmail_outcomes_witness :
    (sendEmail dbC6 (fun _ => false) msgC6 (some janeW)).2 = false ∧
    (sendEmail dbC6 (fun _ => true) msgC6 (some janeW)).2 = true :=
  ⟨((sendEmail_outcomes dbC6 (fun _ => false) msgC6 (some janeW) rfl (by decide)).1 rfl).1,
   ((sendEmail_outcomes dbC6 (fun _ => true) msgC6 (some janeW) rfl (by decide)).2 rfl).1⟩

/-- Witness for C7's amended theorem: a concrete operation sequence from an
empty store keeps the invariant. -/
theorem pipeline_preserves_sentAt_invariant_witness :
    sentOk ([SysOp.brainOp genStubW, SysOp.tick 2,
      SysOp.sendPendingOp (fun _ => true)].foldl applySysOp dbW7) := by
  have h1 : sentOk dbW7 := by
    intro m hm
    exact absurd hm (List.not_mem_nil m)
  have h2 : clockOk dbW7 := by
    intro m hm
    exact absurd hm (List.not_mem_nil m)
  exact (pipeline_preserves_sentAt_invariant dbW7 h1 h2 _).1

/-- Witness for C8's amended theorem at concrete inputs. -/
theorem generateMessage_defaults_and_errors_witness :
    generateMessage janeW trigW (.reply none) =
      .ok { subject := "Following up on " ++ trigW.triggerType,
            content := "Hello, I wanted to reach out regarding recent developments.",
            tone := "professional", media := "email" } :=
  (generateMessage_defaults_and_errors janeW trigW).1

/-- Witness for C9's amended theorem at a one-message queue. -/
theorem sendPendingEmails_processes_fetched_witness :
    (∀ mm ∈ (getMessagesByStatus dbC6 "to_send").filter
        (fun (m : Message) => m.media == "email"),
      msgStatusIs (sendPendingEmails dbC6 (fun _ => true)) mm.id
        (sendOutcome (fun _ => true) (personOf dbC6 mm.personId) mm)) ∧
    (∀ r ∈ dbC6.messages,
      (∀ mm ∈ (getMessagesByStatus dbC6 "to_send").filter
          (fun (m : Message) => m.media == "email"),
        mm.id ≠ r.id) →
      r ∈ (sendPendingEmails dbC6 (fun _ => true)).messages) :=
  sendPendingEmails_processes_fetched dbC6 (fun _ => true) (by decide)

/-- Witness for C10's theorem at a concrete empty-address message. -/
theorem sendEmail_empty_address_fallback_witness :
    mailTo msgC10 (some janeW) = "jane@x.com" ∧
    (sendEmail dbC6 (fun _ => true) msgC10 (some janeW)).2 = true :=
  sendEmail_empty_address_fallback dbC6 (fun _ => true) msgC10 janeW "jane@x.com"
    rfl rfl rfl (by decide)

end Crm
